import Mathlib

/-!
# Verification of the ytd stream-resolution service

This file gives a shallow embedding of the core of the `ytd` repository:
the video-reference normalizer (`extractVideoId`), the format selector
(`extractBestStreamUrl`, in both of its revisions), the retrying upstream
fetch (`getYouTubeStreamData` of `server.js`), and the `/stream` request
handler of the second revision (cache lookup, playability check, format
selection, cache store), together with proofs about them.

JavaScript strings are modelled as Lean `String`s (lists of `Char`s);
machine-level JS numbers appearing here (itags, heights, HTTP statuses)
are small integers, modelled as `Int`/`Nat`.  Absent JSON fields are
`Option`s; JS string truthiness (`""` is falsy) is modelled explicitly.
-/

/-! ## String utilities (JS `String.prototype.split` / `includes`) -/

/-- Character class of the video-id pattern `[A-Za-z0-9_-]` (ASCII). -/
def isIdChar (c : Char) : Bool :=
  c.isAlpha || c.isDigit || c == '_' || c == '-'

/-- The test `/^[A-Za-z0-9_-]{11}$/.test(s)`. -/
def matchesIdPattern (s : String) : Bool :=
  s.length == 11 && s.data.all isIdChar

/-- Split a character list at the first occurrence of `sep` (leftmost match):
`some (before, after)` when `sep` occurs, `none` otherwise.  This is the
primitive underlying the models of `String.prototype.includes` and
`String.prototype.split`. -/
def splitOnceAux (sep : List Char) : List Char → Option (List Char × List Char)
  | [] => none
  | c :: rest =>
    if sep.isPrefixOf (c :: rest) then some ([], (c :: rest).drop sep.length)
    else
      match splitOnceAux sep rest with
      | some (pre, post) => some (c :: pre, post)
      | none => none

/-- JS `s.includes(sub)` (for the non-empty literals used by the code). -/
def strIncludes (s sub : String) : Bool :=
  (splitOnceAux sub.data s.data).isSome

/-- JS `s.startsWith(pre)`, as a character-list prefix test. -/
def strStartsWith (s pre : String) : Bool :=
  pre.data.isPrefixOf s.data

/-- JS `s.split(sep)[1]`: the segment strictly between the first occurrence of
`sep` and the following occurrence (or the end of the string).  Returns `""`
when `sep` does not occur (the code only calls this under an `includes`
guard). -/
def jsSegAfterFirst (s sep : String) : String :=
  match splitOnceAux sep.data s.data with
  | none => ""
  | some (_, post) =>
    match splitOnceAux sep.data post with
    | some (pre2, _) => ⟨pre2⟩
    | none => ⟨post⟩

/-- JS `s.split(sep)[0]`: the prefix before the first occurrence of `sep`
(the whole string when `sep` does not occur). -/
def jsBeforeFirst (s sep : String) : String :=
  match splitOnceAux sep.data s.data with
  | some (pre, _) => ⟨pre⟩
  | none => s

/-! ## Model of the WHATWG `URL` / `URLSearchParams` platform classes

`extractVideoId` and the signature-cipher handling call into Node's `URL`
and `URLSearchParams`.  These are platform built-ins, not repository code;
they are modelled here to the depth the repository exercises them:

* `new URL(s)` throws (modelled as `none`) when `s` has no leading scheme
  (`[A-Za-z][A-Za-z0-9+.-]*:`); otherwise `.search` is the component from
  the first `?` (excluding any fragment introduced by an earlier `#`) —
  including the `?` itself — or `""` when there is no query.  Host
  validation of special schemes is not modelled; no theorem below depends
  on an input in that corner.
* `URLSearchParams` parses `application/x-www-form-urlencoded`: an optional
  leading `?` is dropped, pairs are separated by `&`, a pair splits at its
  first `=`, and names/values are decoded (`+` to space, `%XX` percent
  decoding; the inputs exercised are ASCII). -/

def isSchemeChar (c : Char) : Bool :=
  c.isAlpha || c.isDigit || c == '+' || c == '-' || c == '.'

/-- `new URL(s).search`: `none` models a thrown `TypeError`. -/
def jsURLSearch (s : String) : Option String :=
  match splitOnceAux [':'] s.data with
  | none => none
  | some (scheme, rest) =>
    match scheme with
    | [] => none
    | c :: cs =>
      if c.isAlpha && cs.all isSchemeChar then
        let beforeFrag : List Char :=
          match splitOnceAux ['#'] rest with
          | some (pre, _) => pre
          | none => rest
        match splitOnceAux ['?'] beforeFrag with
        | some (_, q) => some ⟨'?' :: q⟩
        | none => some ""
      else none

/-- Value of an ASCII hex digit. -/
def hexDigitVal (c : Char) : Option Nat :=
  if c.isDigit then some (c.toNat - 48)
  else if 'a' ≤ c && c ≤ 'f' then some (c.toNat - 87)
  else if 'A' ≤ c && c ≤ 'F' then some (c.toNat - 55)
  else none

/-- `application/x-www-form-urlencoded` decoding: `+` becomes a space and
`%XX` percent-escapes are decoded; malformed escapes stay literal. -/
def decodeChars : List Char → List Char
  | [] => []
  | '+' :: rest => ' ' :: decodeChars rest
  | '%' :: a :: b :: rest2 =>
    (match hexDigitVal a, hexDigitVal b with
     | some ha, some hb => Char.ofNat (16 * ha + hb) :: decodeChars rest2
     | _, _ => '%' :: decodeChars (a :: b :: rest2))
  | c :: rest => c :: decodeChars rest

/-- Split on every occurrence of `sep`, with explicit fuel (each step strictly
shrinks the list, and callers pass the list's length as fuel, which always
suffices). -/
def splitAllFuel (sep : List Char) : Nat → List Char → List (List Char)
  | 0, l => [l]
  | fuel + 1, l =>
    match splitOnceAux sep l with
    | none => [l]
    | some (pre, post) => pre :: splitAllFuel sep fuel post

/-- One `name=value` piece of a query string; empty pieces are skipped
(as `URLSearchParams` does). -/
def pairOfPiece (p : List Char) : Option (String × String) :=
  match p with
  | [] => none
  | _ =>
    match splitOnceAux ['='] p with
    | some (k, v) => some (⟨decodeChars k⟩, ⟨decodeChars v⟩)
    | none => some (⟨decodeChars p⟩, "")

/-- `new URLSearchParams(search).get(name)`: first matching pair's decoded
value; `none` models JS `null`. -/
def searchParamsGet (search name : String) : Option String :=
  let q : List Char :=
    match search.data with
    | '?' :: t => t
    | t => t
  let pieces := splitAllFuel ['&'] q.length q
  ((pieces.filterMap pairOfPiece).find? (fun kv => kv.1 == name)).map (fun kv => kv.2)

/-- JS `parseInt(s)` restricted to the shapes the code feeds it (an optional
sign followed by decimal digits; `none` models `NaN`).  Leading-whitespace
skipping and radix prefixes are not exercised by the repository. -/
def parseIntJS (s : String) : Option Int :=
  let digitsVal (l : List Char) : Int :=
    l.foldl (fun a c => 10 * a + ((c.toNat : Int) - 48)) 0
  match s.data with
  | '-' :: rest =>
    let d := rest.takeWhile Char.isDigit
    if d = [] then none else some (-(digitsVal d))
  | '+' :: rest =>
    let d := rest.takeWhile Char.isDigit
    if d = [] then none else some (digitsVal d)
  | l =>
    let d := l.takeWhile Char.isDigit
    if d = [] then none else some (digitsVal d)

/-! ## The reference normalizer `extractVideoId`

Both revisions (`src/ytd/server.js` lines 77–91 and `src/unnamed/part_002`
lines 211–225) define this function identically:

```js
const extractVideoId = (url) => {
  if (!url) return "";
  if (/^[A-Za-z0-9_-]{11}$/.test(url)) return url;
  try {
    if (url.includes("youtube.com/watch")) {
      const params = new URLSearchParams(new URL(url).search);
      return params.get("v") || "";
    } else if (url.includes("youtu.be/")) {
      return url.split("youtu.be/")[1].split("?")[0];
    }
  } catch (e) {}
  return "";
};
```

The thrown `TypeError` of `new URL` on scheme-less input is caught and
yields `""`; `params.get("v") || ""` maps both `null` and the empty value
to `""`.  The invalid outcome is the empty string. -/
def extractVideoId (url : String) : String :=
  if url == "" then ""
  else if matchesIdPattern url then url
  else if strIncludes url "youtube.com/watch" then
    match jsURLSearch url with
    | none => ""
    | some search => (searchParamsGet search "v").getD ""
  else if strIncludes url "youtu.be/" then
    jsBeforeFirst (jsSegAfterFirst url "youtu.be/") "?"
  else ""

example : extractVideoId "dQw4w9WgXcQ" = "dQw4w9WgXcQ" := by decide
example : extractVideoId "https://www.youtube.com/watch?v=dQw4w9WgXcQ" = "dQw4w9WgXcQ" := by decide
example : extractVideoId "https://youtu.be/dQw4w9WgXcQ?t=5" = "dQw4w9WgXcQ" := by decide
example : extractVideoId "https://youtu.be/ab" = "ab" := by decide
example : extractVideoId "youtube.com/watch?v=abcdefghijk" = "" := by decide
example : extractVideoId "" = "" := by decide
example : extractVideoId "not a url" = "" := by decide

/-! ## Stream descriptor data model

`StreamFormat` mirrors the JSON format objects the code reads
(`itag`, `mimeType`, `audioQuality`, `height`, `url`, `signatureCipher`);
absent fields are `none`.  JS string truthiness (empty strings are falsy)
is modelled by `truthyS`. -/

structure StreamFormat where
  itag : Int
  mimeType : Option String := none
  audioQuality : Option String := none
  height : Option Int := none
  url : Option String := none
  signatureCipher : Option String := none
deriving DecidableEq, Repr

structure StreamingData where
  formats : Option (List StreamFormat) := none
  adaptiveFormats : Option (List StreamFormat) := none
deriving DecidableEq, Repr

structure PlayabilityStatus where
  status : Option String := none
  reason : Option String := none
deriving DecidableEq, Repr

structure PlayerData where
  streamingData : Option StreamingData := none
  playabilityStatus : Option PlayabilityStatus := none
deriving DecidableEq, Repr

/-- JS truthiness of an optional string field: present and non-empty. -/
def truthyS : Option String → Bool
  | some s => s != ""
  | none => false

/-- `(f.height || 0)`. -/
def heightOrZero (f : StreamFormat) : Int :=
  f.height.getD 0

/-- `[...(data.streamingData.formats || []), ...(data.streamingData.adaptiveFormats || [])]`. -/
def formatsOf (sd : StreamingData) : List StreamFormat :=
  sd.formats.getD [] ++ sd.adaptiveFormats.getD []

/-- `new URLSearchParams(cipher).get("url")`. -/
def cipherUrl (sc : String) : Option String :=
  searchParamsGet sc "url"

/-- Stable insertion of a format into a list sorted by descending
`height || 0`: the element goes after every already-placed element of
greater-or-equal height.  `sortByHeightDesc` below is therefore the stable
descending sort computed by `formats.sort((a, b) => (b.height || 0) - (a.height || 0))`
(JS `Array.prototype.sort` is stable, and a stable sort of a list under a
total preorder is unique, so any stable implementation models it). -/
def insertDesc (f : StreamFormat) : List StreamFormat → List StreamFormat
  | [] => [f]
  | g :: rest =>
    if heightOrZero g ≤ heightOrZero f then f :: g :: rest
    else g :: insertDesc f rest

def sortByHeightDesc (l : List StreamFormat) : List StreamFormat :=
  l.foldr insertDesc []

/-! ## The format selector, `server.js` revision (lines 311–363)

This revision handles `signatureCipher` payloads: a candidate counts in the
itag search when it has a (truthy) direct `url` or any (truthy)
`signatureCipher`; a selected candidate's cipher yields a URL only when the
query-encoded payload has a non-empty `url` parameter (`if (params.get("url"))`).
The final fallback `formats.find((f) => f.url)` looks at direct URLs only. -/

/-- The selected-format block the `server.js` revision repeats verbatim in
its hint branch and its best-quality branch:

```js
if (format.url) return format.url;
if (format.signatureCipher) {
  const params = new URLSearchParams(format.signatureCipher);
  if (params.get("url")) return params.get("url");
}
// (no return: fall through)
```

`none` models falling through.  This is also exactly the spec's notion of a
candidate's *usable URL* (§4.4: direct, or the URL embedded in the
query-encoded ciphered payload), so the spec-side selectors below reuse it. -/
def usableUrl (f : StreamFormat) : Option String :=
  if truthyS f.url then f.url
  else if truthyS f.signatureCipher then
    match cipherUrl (f.signatureCipher.getD "") with
    | some u => if u != "" then some u else none
    | none => none
  else none

namespace Server

def extractBestStreamUrl (data : PlayerData) (itag : Option Int) : Option String :=
  match data.streamingData with
  | none => none
  | some sd =>
    let formats := formatsOf sd
    -- `if (itag) { const format = formats.find(...); ... }`
    let fromHint : Option String :=
      match itag with
      | none => none
      | some t =>
        if t == 0 then none  -- `if (itag)`: the number 0 is falsy
        else
          match formats.find? (fun f =>
              f.itag == t && (truthyS f.url || truthyS f.signatureCipher)) with
          | none => none
          | some f => usableUrl f
    match fromHint with
    | some u => some u
    | none =>
      -- `const mp4Formats = formats.filter(...)`
      let mp4Formats := formats.filter (fun f =>
        strStartsWith (f.mimeType.getD "") "video/mp4"
          && (truthyS f.url || truthyS f.signatureCipher)
          && truthyS f.audioQuality)
      let fromBest : Option String :=
        match (sortByHeightDesc mp4Formats).head? with
        | none => none
        | some best => usableUrl best
      match fromBest with
      | some u => some u
      | none =>
        -- `const anyFormat = formats.find((f) => f.url); if (anyFormat) return anyFormat.url;`
        match formats.find? (fun f => truthyS f.url) with
        | some f => f.url
        | none => none

end Server

/-! ## The format selector, `part_002` revision (lines 274–301)

The handler of this revision passes the raw `itag` query string; this
revision has no cipher handling at all (`find((f) => f.itag === parseInt(itag) && f.url)`). -/

namespace Api

def extractBestStreamUrl (data : PlayerData) (itag : Option String) : Option String :=
  match data.streamingData with
  | none => none
  | some sd =>
    let formats := formatsOf sd
    let fromHint : Option String :=
      match itag with
      | none => none
      | some t =>
        if t == "" then none  -- `if (itag)`: the empty string is falsy
        else
          match parseIntJS t with
          | none => none      -- `f.itag === NaN` holds for no format
          | some n => (formats.find? (fun f => f.itag == n && truthyS f.url)).bind (fun f => f.url)
    match fromHint with
    | some u => some u
    | none =>
      let mp4Formats := formats.filter (fun f =>
        strStartsWith (f.mimeType.getD "") "video/mp4" && truthyS f.url && truthyS f.audioQuality)
      match (sortByHeightDesc mp4Formats).head? with
      | some best => best.url
      | none => (formats.find? (fun f => truthyS f.url)).bind (fun f => f.url)

end Api

/-! ## Spec-side rendering of the format-selection policy (§4.4 of the spec)

`selectUrlClaim` renders the claimed selection order literally:
(1) hinted candidate with a usable URL, (2) combined audio+video candidate
of greatest height (ties to the first encountered), (3) first candidate in
original order with any usable URL, (4) NotFound (`none`).
`selectUrlAmended` differs from it in exactly two places, those forced by
the counterexamples below: the hinted search selects on *presence* of a
direct URL or ciphered payload (not on usability of the payload), and the
final fallback considers *direct* URLs only. -/

/-- The candidate of greatest `height || 0`, ties broken in favour of the
first encountered. -/
def maxHeightFirst : List StreamFormat → Option StreamFormat
  | [] => none
  | f :: rest =>
    match maxHeightFirst rest with
    | none => some f
    | some g => if heightOrZero g > heightOrZero f then some g else some f

/-- A self-contained combined audio+video candidate in the sense the code
gives those words: a `video/mp4` media type together with an exposed
audio-quality attribute. -/
def isCombinedAV (f : StreamFormat) : Bool :=
  strStartsWith (f.mimeType.getD "") "video/mp4" && truthyS f.audioQuality

def selectUrlClaim (data : PlayerData) (hint : Option Int) : Option String :=
  let candidates := (data.streamingData.map formatsOf).getD []
  let step1 : Option String :=
    match hint with
    | none => none
    | some t =>
      if t == 0 then none
      else (candidates.find? (fun f => f.itag == t && (usableUrl f).isSome)).bind usableUrl
  match step1 with
  | some u => some u
  | none =>
    let combined := candidates.filter (fun f =>
      isCombinedAV f && (truthyS f.url || truthyS f.signatureCipher))
    match (maxHeightFirst combined).bind usableUrl with
    | some u => some u
    | none => (candidates.find? (fun f => (usableUrl f).isSome)).bind usableUrl

def selectUrlAmended (data : PlayerData) (hint : Option Int) : Option String :=
  let candidates := (data.streamingData.map formatsOf).getD []
  let step1 : Option String :=
    match hint with
    | none => none
    | some t =>
      if t == 0 then none
      else (candidates.find? (fun f =>
        f.itag == t && (truthyS f.url || truthyS f.signatureCipher))).bind usableUrl
  match step1 with
  | some u => some u
  | none =>
    let combined := candidates.filter (fun f =>
      isCombinedAV f && (truthyS f.url || truthyS f.signatureCipher))
    match (maxHeightFirst combined).bind usableUrl with
    | some u => some u
    | none => (candidates.find? (fun f => truthyS f.url)).bind (fun f => f.url)

/-- Fixed descriptor of the spec's determinism scenario: 360p and 720p
progressive mp4 formats with audio, and a 1080p adaptive video-only format. -/
def scenarioData : PlayerData :=
  { streamingData := some
      { formats := some
          [ { itag := 18, mimeType := some "video/mp4; codecs=\x22avc1, mp4a\x22",
              audioQuality := some "AUDIO_QUALITY_LOW", height := some 360,
              url := some "https://e.test/360" },
            { itag := 22, mimeType := some "video/mp4; codecs=\x22avc1, mp4a\x22",
              audioQuality := some "AUDIO_QUALITY_MEDIUM", height := some 720,
              url := some "https://e.test/720" } ],
        adaptiveFormats := some
          [ { itag := 137, mimeType := some "video/mp4; codecs=\x22avc1\x22",
              height := some 1080, url := some "https://e.test/1080" } ] },
    playabilityStatus := some { status := some "OK" } }

/-- Descriptor whose only candidate carries its URL inside a query-encoded
ciphered payload (no direct URL anywhere). -/
def cipherOnlyData : PlayerData :=
  { streamingData := some
      { adaptiveFormats := some
          [ { itag := 251, signatureCipher := some "s=sig&url=http%3A%2F%2Fe.test%2Fa" } ] } }

/-- Descriptor with two candidates of the hinted itag — an earlier one whose
ciphered payload embeds no URL, and a later one with a direct URL — plus a
combined mp4+audio candidate. -/
def hintPairData : PlayerData :=
  { streamingData := some
      { formats := some
          [ { itag := 22, signatureCipher := some "s=abc" },
            { itag := 22, url := some "http://b.test" },
            { itag := 18, mimeType := some "video/mp4", audioQuality := some "AUDIO_QUALITY_LOW",
              height := some 360, url := some "http://c.test" } ] } }

example : Server.extractBestStreamUrl scenarioData none = some "https://e.test/720" := by decide
example : Server.extractBestStreamUrl scenarioData (some 137) = some "https://e.test/1080" := by decide
example : Server.extractBestStreamUrl cipherOnlyData none = none := by decide
example : selectUrlClaim cipherOnlyData none = some "http://e.test/a" := by decide
example : Server.extractBestStreamUrl hintPairData (some 22) = some "http://c.test" := by decide
example : selectUrlClaim hintPairData (some 22) = some "http://b.test" := by decide
example : selectUrlAmended cipherOnlyData none = none := by decide
example : selectUrlAmended hintPairData (some 22) = some "http://c.test" := by decide
example : Api.extractBestStreamUrl scenarioData none = some "https://e.test/720" := by decide
example : Api.extractBestStreamUrl scenarioData (some "137") = some "https://e.test/1080" := by decide

/-! ## Claim C1 — format-selection order -/

theorem insertDesc_ne_nil (f : StreamFormat) (l : List StreamFormat) :
    insertDesc f l ≠ [] := by
  cases l with
  | nil => simp [insertDesc]
  | cons g rest =>
    simp only [insertDesc]
    split <;> simp

/-- The head of the stable descending sort is the first candidate of maximal
height — the bridge between the code's `sort(...)[0]` and the spec's
"greatest vertical resolution, ties broken by first-encountered order". -/
theorem sortByHeightDesc_head :
    ∀ l : List StreamFormat, (sortByHeightDesc l).head? = maxHeightFirst l := by
  intro l
  induction l with
  | nil => rfl
  | cons f rest ih =>
    show (insertDesc f (sortByHeightDesc rest)).head? = maxHeightFirst (f :: rest)
    cases hr : sortByHeightDesc rest with
    | nil =>
      have h0 : maxHeightFirst rest = none := by rw [← ih, hr]; rfl
      simp [maxHeightFirst, h0, insertDesc]
    | cons m t =>
      have hm : maxHeightFirst rest = some m := by rw [← ih, hr]; rfl
      have hmax : maxHeightFirst (f :: rest)
          = if heightOrZero m > heightOrZero f then some m else some f := by
        simp [maxHeightFirst, hm]
      rw [hmax]
      by_cases hle : heightOrZero m ≤ heightOrZero f
      · rw [if_neg (by omega)]
        simp [insertDesc, hle]
      · rw [if_pos (by omega)]
        simp [insertDesc, hle]

theorem combinedPred_eq (f : StreamFormat) :
    (strStartsWith (f.mimeType.getD "") "video/mp4"
      && (truthyS f.url || truthyS f.signatureCipher)
      && truthyS f.audioQuality)
    = (isCombinedAV f && (truthyS f.url || truthyS f.signatureCipher)) := by
  unfold isCombinedAV
  cases strStartsWith (f.mimeType.getD "") "video/mp4" <;>
    cases truthyS f.audioQuality <;>
      cases (truthyS f.url || truthyS f.signatureCipher) <;> rfl

/-- C1, counterexample.  The claim's selection order fails on the code in its
steps (1) and (3): at `cipherOnlyData` (a sole candidate whose usable URL
lives in its ciphered payload) the claimed rule (3) produces that embedded
URL while `extractBestStreamUrl` produces NotFound, because the code's
fallback `formats.find((f) => f.url)` inspects direct URLs only; at
`hintPairData` with hint 22 the claimed rule (1) selects the candidate with
itag 22 *and a usable URL* (yielding `http://b.test`) while the code's
`find` matches the earlier itag-22 candidate on mere payload presence, finds
no embedded URL in it, and falls through to the best-quality rule
(yielding `http://c.test`). -/
theorem c1_format_selection_counterexample :
    (Server.extractBestStreamUrl cipherOnlyData none = none
      ∧ selectUrlClaim cipherOnlyData none = some "http://e.test/a")
    ∧ (Server.extractBestStreamUrl hintPairData (some 22) = some "http://c.test"
      ∧ selectUrlClaim hintPairData (some 22) = some "http://b.test") :=
  ⟨⟨by decide, by decide⟩, by decide, by decide⟩

/-- C1, amended.  `extractBestStreamUrl` applies the claimed order with two
corrections: the hinted search (1) selects the first candidate whose
formatId equals the hint and which has a direct URL or *any* ciphered
payload — falling through when the selected payload embeds no URL — and the
final fallback (3) returns the first candidate with a *direct* URL
(ciphered-only candidates are skipped there).  Step (2) is as claimed:
among combined audio+video candidates exposing an audio-quality attribute,
the greatest height wins, ties to the first encountered.  In particular,
on the spec's fixed descriptor no hint selects the 720p URL, and hinting
the 1080p itag selects the 1080p URL even though that format lacks audio. -/
theorem c1_format_selection_amended :
    (∀ (data : PlayerData) (hint : Option Int),
        Server.extractBestStreamUrl data hint = selectUrlAmended data hint)
    ∧ Server.extractBestStreamUrl scenarioData none = some "https://e.test/720"
    ∧ Server.extractBestStreamUrl scenarioData (some 137) = some "https://e.test/1080" := by
  refine ⟨?_, by decide, by decide⟩
  intro data hint
  unfold Server.extractBestStreamUrl selectUrlAmended
  cases hsd : data.streamingData with
  | none =>
    cases hint with
    | none => rfl
    | some t =>
      by_cases ht : (t == 0) = true
      · simp only [ht, if_pos]; rfl
      · simp only [ht, if_neg]; rfl
  | some sd =>
    simp only [Option.map_some', Option.getD_some]
    have e1 : ∀ (t : Int),
        (match (formatsOf sd).find? (fun f =>
            f.itag == t && (truthyS f.url || truthyS f.signatureCipher)) with
         | none => (none : Option String)
         | some f => usableUrl f)
        = ((formatsOf sd).find? (fun f =>
            f.itag == t && (truthyS f.url || truthyS f.signatureCipher))).bind usableUrl := by
      intro t
      cases (formatsOf sd).find? (fun f =>
        f.itag == t && (truthyS f.url || truthyS f.signatureCipher)) <;> rfl
    have efil : (formatsOf sd).filter (fun f =>
        strStartsWith (f.mimeType.getD "") "video/mp4"
          && (truthyS f.url || truthyS f.signatureCipher)
          && truthyS f.audioQuality)
        = (formatsOf sd).filter (fun f => isCombinedAV f && (truthyS f.url || truthyS f.signatureCipher)) := by
      have hfun : (fun f => strStartsWith (f.mimeType.getD "") "video/mp4"
          && (truthyS f.url || truthyS f.signatureCipher)
          && truthyS f.audioQuality)
          = (fun f => isCombinedAV f && (truthyS f.url || truthyS f.signatureCipher)) :=
        funext combinedPred_eq
      rw [hfun]
    have e2 : ∀ (l : List StreamFormat),
        (match (sortByHeightDesc l).head? with
         | none => (none : Option String)
         | some best => usableUrl best)
        = (maxHeightFirst l).bind usableUrl := by
      intro l
      rw [sortByHeightDesc_head]
      cases maxHeightFirst l <;> rfl
    have e3 :
        (match (formatsOf sd).find? (fun f => truthyS f.url) with
         | some f => f.url
         | none => (none : Option String))
        = ((formatsOf sd).find? (fun f => truthyS f.url)).bind (fun f => f.url) := by
      cases (formatsOf sd).find? (fun f => truthyS f.url) <;> rfl
    cases hint with
    | none =>
      simp only []
      rw [efil, e2, e3]
    | some t =>
      by_cases ht : (t == 0) = true
      · simp only [if_pos ht]
        rw [efil, e2, e3]
      · simp only [if_neg ht]
        rw [e1 t, efil, e2, e3]

/-! ## The retrying upstream fetch, `server.js` (lines 183–309)

`getYouTubeStreamData(videoId, attempt = 0)` performs, per attempt:

1. `initialVisit`: one GET of the canonical watch page.  On success the
   cookie jar is saved; on failure the error is logged and the jar is
   returned unchanged (the `catch` makes handshake failure non-fatal).
2. a randomized human-like pre-request delay (no observable effect);
3. the POST to the player endpoint.  On success the cookie jar is saved
   and the data returned.  On error with status 429/403, status ≥ 500, or
   no status at all, and `attempt < 3`, it sleeps
   `2^(attempt+2)*1000 + Math.random()*1000` ms and re-invokes itself with
   `attempt + 1`; otherwise it logs the error and rethrows.

The model abstracts the mocked upstream as `upstream : ℕ → UpstreamResp`
(answer per attempt index), handshake success as `handshake : ℕ → Bool`,
and the retry jitter draw as `jitter : ℕ → ℕ` (the code draws it in
`[0, 1000)`).  Each run returns its outcome together with the ordered list
of observable events.  The recursion depth from the public entry point
(`attempt = 0`) is at most 4 because of the `attempt < 3` guard; the fuel
argument (4 at entry) makes this structural, and its exhaustion branch
repeats the no-retry branch (it is unreachable from the entry point). -/

namespace Server

inductive UpstreamResp
  | ok (d : PlayerData)
  | httpErr (status : Option Nat)
deriving DecidableEq, Repr

inductive Ev
  | handshakeReq
  | handshakeSave
  | handshakeLog
  | dataReq
  | dataSave
  | errLog
  | retryDelay (ms : Nat)
deriving DecidableEq, Repr

inductive RunResult
  | success (d : PlayerData)
  | failure (status : Option Nat)
deriving DecidableEq, Repr

/-- `status === 429 || status === 403 || status >= 500 || !status`. -/
def isRetryableStatus : Option Nat → Bool
  | none => true
  | some s => s == 429 || s == 403 || decide (500 ≤ s)

/-- Observable events of `initialVisit`. -/
def initialVisitEvents (ok : Bool) : List Ev :=
  if ok then [.handshakeReq, .handshakeSave] else [.handshakeReq, .handshakeLog]

/-- `Math.pow(2, attempt + 2) * 1000 + Math.random() * 1000`. -/
def retryDelayMs (attempt jitter : Nat) : Nat :=
  2 ^ (attempt + 2) * 1000 + jitter

def getYTSDAux (handshake : Nat → Bool) (upstream : Nat → UpstreamResp)
    (jitter : Nat → Nat) : Nat → Nat → RunResult × List Ev
  | attempt, 0 =>
    (match upstream attempt with
     | .ok d => (.success d, initialVisitEvents (handshake attempt) ++ [.dataReq, .dataSave])
     | .httpErr s => (.failure s, initialVisitEvents (handshake attempt) ++ [.dataReq, .errLog]))
  | attempt, fuel + 1 =>
    match upstream attempt with
    | .ok d => (.success d, initialVisitEvents (handshake attempt) ++ [.dataReq, .dataSave])
    | .httpErr s =>
      if attempt < 3 ∧ isRetryableStatus s = true then
        let next := getYTSDAux handshake upstream jitter (attempt + 1) fuel
        (next.1, initialVisitEvents (handshake attempt)
          ++ [.dataReq, .retryDelay (retryDelayMs attempt (jitter attempt))] ++ next.2)
      else (.failure s, initialVisitEvents (handshake attempt) ++ [.dataReq, .errLog])

/-- `getYouTubeStreamData(videoId)` — entry at `attempt = 0`. -/
def getYouTubeStreamData (handshake : Nat → Bool) (upstream : Nat → UpstreamResp)
    (jitter : Nat → Nat) : RunResult × List Ev :=
  getYTSDAux handshake upstream jitter 0 4

/-- Upstream answering 429 twice, then succeeding. -/
def mock429ThenOk (d : PlayerData) : Nat → UpstreamResp :=
  fun n => if n < 2 then .httpErr (some 429) else .ok d

/-- Upstream answering 429 on every call. -/
def mockAlways429 : Nat → UpstreamResp :=
  fun _ => .httpErr (some 429)

theorem count_dataReq_initialVisit (b : Bool) :
    (initialVisitEvents b).count Ev.dataReq = 0 := by
  cases b <;> rfl

end Server

namespace Server

theorem count_dataReq_retryPair (x : Nat) :
    ([Ev.dataReq, Ev.retryDelay x] : List Ev).count Ev.dataReq = 1 := rfl

/-- One unrolling of the retry recursion, for a retryable failed attempt
below the cap. -/
theorem getYTSDAux_step_retry (h : Nat → Bool) (u : Nat → UpstreamResp) (j : Nat → Nat)
    (a fuel : Nat) (s : Option Nat) (hu : u a = .httpErr s) (ha : a < 3)
    (hr : isRetryableStatus s = true) :
    getYTSDAux h u j a (fuel + 1)
      = ((getYTSDAux h u j (a + 1) fuel).1,
         initialVisitEvents (h a)
           ++ [Ev.dataReq, Ev.retryDelay (retryDelayMs a (j a))]
           ++ (getYTSDAux h u j (a + 1) fuel).2) := by
  simp [getYTSDAux, hu, hr, ha]

/-- Every run of the fetch performs at least one data request. -/
theorem one_le_count_dataReq (h : Nat → Bool) (u : Nat → UpstreamResp) (j : Nat → Nat) :
    ∀ (fuel a : Nat), 1 ≤ ((getYTSDAux h u j a fuel).2.count Ev.dataReq) := by
  intro fuel
  induction fuel with
  | zero =>
    intro a
    cases hu : u a <;>
      simp [getYTSDAux, hu, List.count_append, count_dataReq_initialVisit, List.count_cons]
  | succ n ih =>
    intro a
    cases hu : u a with
    | ok d =>
      simp [getYTSDAux, hu, List.count_append, count_dataReq_initialVisit, List.count_cons]
    | httpErr s =>
      by_cases hc : a < 3 ∧ isRetryableStatus s = true
      · simp [getYTSDAux, hu, hc, List.count_append, count_dataReq_initialVisit,
          count_dataReq_retryPair]
      · simp [getYTSDAux, hu, hc, List.count_append, count_dataReq_initialVisit, List.count_cons]

end Server

/-- C2.  The retry policy of `getYouTubeStreamData`: an attempt is retried
exactly when the response status is 429/403, a server-error status ≥ 500,
or a network failure without status; any other error status is surfaced
immediately (one upstream call, no retry); the backoff delay grows
strictly across attempts whatever jitter (below the code's 1000 ms bound)
is drawn; the mocked upstream answering 429 twice then succeeding yields
exactly 3 upstream calls and success; the mocked upstream always answering
429 exhausts the cap (4 calls), surfaces the transient failure, and logs
an error entry. -/
theorem c2_retry_policy :
    (∀ (h : Nat → Bool) (u : Nat → Server.UpstreamResp) (j : Nat → Nat) (s : Option Nat),
        u 0 = .httpErr s → Server.isRetryableStatus s = false →
          (Server.getYouTubeStreamData h u j).1 = .failure s
          ∧ (Server.getYouTubeStreamData h u j).2.count .dataReq = 1)
    ∧ (∀ (h : Nat → Bool) (u : Nat → Server.UpstreamResp) (j : Nat → Nat) (s : Option Nat),
        u 0 = .httpErr s → Server.isRetryableStatus s = true →
          2 ≤ (Server.getYouTubeStreamData h u j).2.count .dataReq)
    ∧ (∀ (a j j' : Nat), j < 1000 → j' < 1000 →
        Server.retryDelayMs a j < Server.retryDelayMs (a + 1) j')
    ∧ (∀ (h : Nat → Bool) (j : Nat → Nat) (d : PlayerData),
        (Server.getYouTubeStreamData h (Server.mock429ThenOk d) j).1 = .success d
        ∧ (Server.getYouTubeStreamData h (Server.mock429ThenOk d) j).2.count .dataReq = 3)
    ∧ (∀ (h : Nat → Bool) (j : Nat → Nat),
        (Server.getYouTubeStreamData h Server.mockAlways429 j).1 = .failure (some 429)
        ∧ (Server.getYouTubeStreamData h Server.mockAlways429 j).2.count .dataReq = 4
        ∧ Server.Ev.errLog ∈ (Server.getYouTubeStreamData h Server.mockAlways429 j).2
        ∧ Server.isRetryableStatus (some 429) = true) := by
  refine ⟨?_, ?_, ?_, ?_, ?_⟩
  · intro h u j s hu hr
    constructor <;>
      simp [Server.getYouTubeStreamData, Server.getYTSDAux, hu, hr,
        List.count_append, Server.count_dataReq_initialVisit, List.count_cons]
  · intro h u j s hu hr
    have hnext := Server.one_le_count_dataReq h u j 3 1
    have e2 : Server.getYouTubeStreamData h u j = Server.getYTSDAux h u j 0 (3 + 1) := rfl
    have e := Server.getYTSDAux_step_retry h u j 0 3 s hu (by omega) hr
    rw [e2, e]
    simp only [List.count_append, Server.count_dataReq_initialVisit,
      Server.count_dataReq_retryPair, Nat.zero_add]
    omega
  · intro a j j' hj hj'
    unfold Server.retryDelayMs
    have h1 : 1 ≤ 2 ^ (a + 2) := Nat.one_le_two_pow
    have h2 : 2 ^ (a + 1 + 2) = 2 * 2 ^ (a + 2) := by ring
    omega
  · intro h j d
    constructor <;>
      simp [Server.getYouTubeStreamData, Server.getYTSDAux, Server.mock429ThenOk,
        Server.isRetryableStatus, List.count_append, Server.count_dataReq_initialVisit,
        Server.count_dataReq_retryPair, List.count_cons]
  · intro h j
    refine ⟨?_, ?_, ?_, rfl⟩ <;>
      simp [Server.getYouTubeStreamData, Server.getYTSDAux, Server.mockAlways429,
        Server.isRetryableStatus, List.count_append, Server.count_dataReq_initialVisit,
        Server.count_dataReq_retryPair, List.count_cons]

/-! ## Claims C9 and C10 — session persistence and the handshake -/

/-- C2 witness: a 404 answer is surfaced immediately with a single
upstream call. -/
theorem c2_retry_policy_witness :
    (Server.getYouTubeStreamData (fun _ => true) (fun _ => .httpErr (some 404)) (fun _ => 0)).1
      = .failure (some 404)
    ∧ (Server.getYouTubeStreamData (fun _ => true) (fun _ => .httpErr (some 404))
        (fun _ => 0)).2.count .dataReq = 1 :=
  c2_retry_policy.1 (fun _ => true) (fun _ => .httpErr (some 404)) (fun _ => 0)
    (some 404) rfl (by decide)

namespace Server

theorem dataSave_not_mem_initialVisit (b : Bool) :
    Ev.dataSave ∉ initialVisitEvents b := by
  cases b <;> decide

/-- The cookie jar is saved after the data request exactly on the success
path: `saveCookieJar` follows the successful POST, while both the retry
branch and the final `logError`/`throw` branch skip it. -/
theorem dataSave_iff_success (h : Nat → Bool) (u : Nat → UpstreamResp) (j : Nat → Nat) :
    ∀ (fuel a : Nat),
      (∃ d, (getYTSDAux h u j a fuel).1 = .success d)
        ↔ Ev.dataSave ∈ (getYTSDAux h u j a fuel).2 := by
  intro fuel
  induction fuel with
  | zero =>
    intro a
    cases hu : u a <;>
      simp [getYTSDAux, hu, List.mem_append, dataSave_not_mem_initialVisit]
  | succ n ih =>
    intro a
    cases hu : u a with
    | ok d =>
      simp [getYTSDAux, hu, List.mem_append, dataSave_not_mem_initialVisit]
    | httpErr s =>
      by_cases hc : a < 3 ∧ isRetryableStatus s = true
      · simp [getYTSDAux, hu, hc, List.mem_append, dataSave_not_mem_initialVisit, ih]
      · simp [getYTSDAux, hu, hc, List.mem_append, dataSave_not_mem_initialVisit]

end Server

/-- C9, counterexample.  A resolution whose data request fails with a
non-retryable status ends without any post-data-request save of the
session state: `saveCookieJar` is only reached on the success path of
`getYouTubeStreamData`, the `catch` path logs and rethrows. -/
theorem c9_counterexample :
    (Server.getYouTubeStreamData (fun _ => true) (fun _ => .httpErr (some 404)) (fun _ => 0)).1
      = .failure (some 404)
    ∧ Server.Ev.dataSave ∉
        (Server.getYouTubeStreamData (fun _ => true) (fun _ => .httpErr (some 404)) (fun _ => 0)).2 := by
  exact ⟨by decide, by decide⟩

/-- C9, amended.  The session state is persisted after the data request
exactly when the resolution succeeds; a failing resolution performs no
post-data-request persistence (its only saves are the per-attempt
handshake-time saves inside `initialVisit`). -/
theorem c9_session_persistence_amended :
    ∀ (h : Nat → Bool) (u : Nat → Server.UpstreamResp) (j : Nat → Nat),
      (∃ d, (Server.getYouTubeStreamData h u j).1 = .success d)
        ↔ Server.Ev.dataSave ∈ (Server.getYouTubeStreamData h u j).2 :=
  fun h u j => Server.dataSave_iff_success h u j 4 0

namespace Server

/-- Projection of a trace to its handshake and data requests. -/
def hdProj (l : List Ev) : List Ev :=
  l.filter (fun e => e == .handshakeReq || e == .dataReq)

theorem hdProj_initialVisit (b : Bool) :
    hdProj (initialVisitEvents b) = [Ev.handshakeReq] := by
  cases b <;> rfl

/-- Every run is a sequence of attempts, each consisting of exactly one
handshake request directly followed by one data request. -/
theorem hdProj_run (h : Nat → Bool) (u : Nat → UpstreamResp) (j : Nat → Nat) :
    ∀ (fuel a : Nat), ∃ n, 1 ≤ n ∧
      hdProj ((getYTSDAux h u j a fuel).2)
        = (List.replicate n [Ev.handshakeReq, Ev.dataReq]).flatten := by
  intro fuel
  induction fuel with
  | zero =>
    intro a
    refine ⟨1, le_refl 1, ?_⟩
    cases hu : u a <;>
      simp [getYTSDAux, hu, hdProj, initialVisitEvents, List.filter_append] <;>
        cases h a <;> rfl
  | succ n ih =>
    intro a
    cases hu : u a with
    | ok d =>
      refine ⟨1, le_refl 1, ?_⟩
      simp [getYTSDAux, hu, hdProj, initialVisitEvents, List.filter_append]
      cases h a <;> rfl
    | httpErr s =>
      by_cases hc : a < 3 ∧ isRetryableStatus s = true
      · obtain ⟨m, hm1, hm⟩ := ih (a + 1)
        refine ⟨m + 1, by omega, ?_⟩
        unfold hdProj at hm ⊢
        simp [getYTSDAux, hu, hc, List.filter_append, hm]
        cases h a <;> simp [initialVisitEvents, List.replicate_succ]
      · refine ⟨1, le_refl 1, ?_⟩
        simp [getYTSDAux, hu, hc, hdProj, initialVisitEvents, List.filter_append]
        cases h a <;> rfl

/-- The outcome of a run does not depend on handshake successes or
failures: `initialVisit` catches its own errors and resolution continues. -/
theorem result_ignores_handshake (h h' : Nat → Bool) (u : Nat → UpstreamResp)
    (j : Nat → Nat) : ∀ (fuel a : Nat),
      (getYTSDAux h u j a fuel).1 = (getYTSDAux h' u j a fuel).1 := by
  intro fuel
  induction fuel with
  | zero => intro a; cases hu : u a <;> simp [getYTSDAux, hu]
  | succ n ih =>
    intro a
    cases hu : u a with
    | ok d => simp [getYTSDAux, hu]
    | httpErr s =>
      by_cases hc : a < 3 ∧ isRetryableStatus s = true
      · simp [getYTSDAux, hu, hc, ih]
      · simp [getYTSDAux, hu, hc]

/-- A failed handshake appends a log entry to the trace. -/
theorem handshakeLog_of_failed (h : Nat → Bool) (u : Nat → UpstreamResp)
    (j : Nat → Nat) : ∀ (fuel a : Nat), h a = false →
      Ev.handshakeLog ∈ (getYTSDAux h u j a fuel).2 := by
  intro fuel a hfail
  have hmem : Ev.handshakeLog ∈ initialVisitEvents (h a) := by
    rw [hfail]; decide
  cases fuel with
  | zero => cases hu : u a <;> simp [getYTSDAux, hu, List.mem_append, hmem]
  | succ n =>
    cases hu : u a with
    | ok d => simp [getYTSDAux, hu, List.mem_append, hmem]
    | httpErr s =>
      by_cases hc : a < 3 ∧ isRetryableStatus s = true
      · simp [getYTSDAux, hu, hc, List.mem_append, hmem]
      · simp [getYTSDAux, hu, hc, List.mem_append, hmem]

end Server

/-- C10.  In every resolution each data request is preceded by exactly one
handshake request (the trace's handshake/data projection is an alternation
`[handshake, data, handshake, data, …]` with one handshake per data
request); a failed handshake is logged; and a handshake failure is
non-fatal — the run's outcome is whatever the upstream answers dictate,
independently of handshake successes. -/
theorem c10_handshake :
    (∀ (h : Nat → Bool) (u : Nat → Server.UpstreamResp) (j : Nat → Nat), ∃ n, 1 ≤ n ∧
      Server.hdProj ((Server.getYouTubeStreamData h u j).2)
        = (List.replicate n [Server.Ev.handshakeReq, Server.Ev.dataReq]).flatten)
    ∧ (∀ (h h' : Nat → Bool) (u : Nat → Server.UpstreamResp) (j : Nat → Nat),
        (Server.getYouTubeStreamData h u j).1 = (Server.getYouTubeStreamData h' u j).1)
    ∧ (∀ (h : Nat → Bool) (u : Nat → Server.UpstreamResp) (j : Nat → Nat),
        h 0 = false →
        Server.Ev.handshakeLog ∈ (Server.getYouTubeStreamData h u j).2) :=
  ⟨fun h u j => Server.hdProj_run h u j 4 0,
   fun h h' u j => Server.result_ignores_handshake h h' u j 4 0,
   fun h u j hf => Server.handshakeLog_of_failed h u j 4 0 hf⟩

/-- C10 witness: with a failing handshake and an immediately successful
upstream, the trace is one handshake followed by one data request, the
outcome equals that of the same run with a succeeding handshake, and the
handshake failure is logged. -/
theorem c10_handshake_witness :
    (∃ n, 1 ≤ n ∧
      Server.hdProj ((Server.getYouTubeStreamData (fun _ => false)
          (fun _ => .ok {}) (fun _ => 0)).2)
        = (List.replicate n [Server.Ev.handshakeReq, Server.Ev.dataReq]).flatten)
    ∧ Server.Ev.handshakeLog ∈ (Server.getYouTubeStreamData (fun _ => false)
        (fun _ => .ok {}) (fun _ => 0)).2 :=
  ⟨c10_handshake.1 (fun _ => false) (fun _ => .ok {}) (fun _ => 0),
   c10_handshake.2.2 (fun _ => false) (fun _ => .ok {}) (fun _ => 0) rfl⟩

/-! ## The `/stream` handler of `part_002` (lines 307–358) as a state machine

The handler, per request: validates the reference, builds
`cacheKey = itag ? `${videoId}_${itag}` : videoId`, consults the cache
(answering on a hit), otherwise `await`s `getYouTubeStreamData` (this
revision performs a single POST, throwing on HTTP error — the `catch`
answers 500), then checks `data.playabilityStatus?.status !== "OK"`
(answering 403 with the upstream reason), extracts a URL with
`extractBestStreamUrl` (404 when none), stores it in the cache and answers.

Concurrency model: the Node event loop interleaves requests only at
`await` points.  Each request is therefore two atomic steps — step one
from the cache check up to and including the start of the upstream call,
step two from the upstream's answer to the response — and a schedule is a
list of request indices; `runSched` executes the steps of each scheduled
request in order against the shared state (cache, upstream-call counter,
and a counter of format-selector invocations). -/

namespace Api

structure ReqSpec where
  videoId : String
  itag : Option String := none
  /-- What the (mocked) upstream answers this request's data fetch. -/
  upstream : Server.UpstreamResp
deriving DecidableEq, Repr

inductive HResp
  | okUrl (u : String)
  | unplayable (reason : String)
  | noStream
  | serverError
deriving DecidableEq, Repr

inductive Phase
  | start
  | waiting
  | finished (r : HResp)
deriving DecidableEq, Repr

structure MState where
  cache : List (String × String)
  upstreamCalls : Nat
  selectorCalls : Nat
  phases : List Phase
deriving DecidableEq, Repr

/-- `const cacheKey = itag ? `${videoId}_${itag}` : videoId;` (the `itag`
query parameter is a string; the empty string is falsy). -/
def cacheKeyJs (videoId : String) (itag : Option String) : String :=
  match itag with
  | some t => if t != "" then videoId ++ "_" ++ t else videoId
  | none => videoId

/-- `data.playabilityStatus?.status === "OK"` (an absent field compares
unequal). -/
def playabilityIsOK (d : PlayerData) : Bool :=
  match d.playabilityStatus with
  | some ps => ps.status == some "OK"
  | none => false

/-- `data.playabilityStatus?.reason || "Video unavailable"`. -/
def reasonOf (d : PlayerData) : String :=
  match d.playabilityStatus with
  | some ps =>
    match ps.reason with
    | some r => if r != "" then r else "Video unavailable"
    | none => "Video unavailable"
  | none => "Video unavailable"

/-- One atomic step of request `i`. -/
def stepAt (reqs : List ReqSpec) (st : MState) (i : Nat) : MState :=
  match reqs[i]?, st.phases[i]? with
  | some r, some .start =>
    let k := cacheKeyJs r.videoId r.itag
    match st.cache.lookup k with
    | some u => { st with phases := st.phases.set i (.finished (.okUrl u)) }
    | none =>
      { st with upstreamCalls := st.upstreamCalls + 1,
                phases := st.phases.set i .waiting }
  | some r, some .waiting =>
    let k := cacheKeyJs r.videoId r.itag
    match r.upstream with
    | .httpErr _ => { st with phases := st.phases.set i (.finished .serverError) }
    | .ok d =>
      if playabilityIsOK d = false then
        { st with phases := st.phases.set i (.finished (.unplayable (reasonOf d))) }
      else
        match extractBestStreamUrl d r.itag with
        | none =>
          { st with selectorCalls := st.selectorCalls + 1,
                    phases := st.phases.set i (.finished .noStream) }
        | some u =>
          { st with selectorCalls := st.selectorCalls + 1,
                    cache := (k, u) :: st.cache,
                    phases := st.phases.set i (.finished (.okUrl u)) }
  | _, _ => st

def initState (reqs : List ReqSpec) : MState :=
  ⟨[], 0, 0, List.replicate reqs.length .start⟩

def runSched (reqs : List ReqSpec) (sched : List Nat) : MState :=
  sched.foldl (stepAt reqs) (initState reqs)

end Api

/-- Playable descriptor of the spec's end-to-end scenario: one mp4+audio
480p format. -/
def simpleOkData : PlayerData :=
  { streamingData := some
      { formats := some
          [ { itag := 18, mimeType := some "video/mp4; codecs=\x22avc1, mp4a\x22",
              audioQuality := some "AUDIO_QUALITY_MEDIUM", height := some 480,
              url := some "https://e.test/480" } ] },
    playabilityStatus := some { status := some "OK" } }

def coalesceReq : Api.ReqSpec :=
  { videoId := "dQw4w9WgXcQ", itag := none, upstream := .ok simpleOkData }

/-- Unplayable descriptor. -/
def unplayableData : PlayerData :=
  { playabilityStatus := some { status := some "ERROR", reason := some "Private video" } }

example : (Api.runSched [coalesceReq, coalesceReq] [0, 1, 0, 1]).upstreamCalls = 2 := by decide
example : (Api.runSched [coalesceReq, coalesceReq] [0, 0, 1]).upstreamCalls = 1 := by decide
example : (Api.runSched [⟨"dQw4w9WgXcQ", none, .ok unplayableData⟩] [0, 0]).phases
    = [.finished (.unplayable "Private video")] := by decide

/-! ## Claims C3, C4, C5 — coalescing, cache keying, unplayable short-circuit -/

/-- C4.  The cache key is `videoId` alone when no format hint is given and
`videoId ++ "_" ++ hint` otherwise, so resolutions of the same video under
different hints (the handler receives hints as the non-empty decimal
strings of the claimed integers, and distinct integers have distinct
strings) occupy distinct entries; and after a successful resolution an
immediately following identical request (the handler has no
`forceRefresh`) is answered from the cache with the same URL, with no
second upstream call. -/
theorem c4_cache_key_and_roundtrip :
    (∀ (v t1 t2 : String), t1 ≠ "" → t2 ≠ "" → t1 ≠ t2 →
        Api.cacheKeyJs v (some t1) ≠ Api.cacheKeyJs v (some t2))
    ∧ (∀ (v t : String), t ≠ "" →
        Api.cacheKeyJs v (some t) ≠ Api.cacheKeyJs v none)
    ∧ (∀ (vid : String) (itag : Option String) (d : PlayerData) (u : String),
        Api.playabilityIsOK d = true →
        Api.extractBestStreamUrl d itag = some u →
          (Api.runSched [⟨vid, itag, .ok d⟩, ⟨vid, itag, .ok d⟩] [0, 0, 1]).phases
              = [.finished (.okUrl u), .finished (.okUrl u)]
          ∧ (Api.runSched [⟨vid, itag, .ok d⟩, ⟨vid, itag, .ok d⟩] [0, 0, 1]).upstreamCalls = 1) := by
  refine ⟨?_, ?_, ?_⟩
  · intro v t1 t2 h1 h2 hne
    simp [Api.cacheKeyJs, h1, h2]
    intro h
    apply hne
    have hd := congrArg String.data h
    simp [String.data_append] at hd
    exact String.ext hd
  · intro v t ht
    simp [Api.cacheKeyJs, ht]
    intro h
    have hd := congrArg String.data h
    simp [String.data_append] at hd
  · intro vid itag d u hp he
    constructor <;>
      simp [Api.runSched, Api.initState, Api.stepAt, hp, he, List.lookup]

/-- C4 witness: the end-to-end 480p scenario — resolve, repeat, one
upstream call, both callers answered with the cached URL. -/
theorem c4_cache_key_and_roundtrip_witness :
    (Api.runSched [coalesceReq, coalesceReq] [0, 0, 1]).phases
        = [.finished (.okUrl "https://e.test/480"), .finished (.okUrl "https://e.test/480")]
    ∧ (Api.runSched [coalesceReq, coalesceReq] [0, 0, 1]).upstreamCalls = 1 :=
  c4_cache_key_and_roundtrip.2.2 "dQw4w9WgXcQ" none simpleOkData "https://e.test/480"
    (by decide) (by decide)

/-- C3, counterexample.  The handler has no in-flight request coalescing:
two concurrent requests for the same key, interleaved at the `await` of
the upstream call (schedule `[0, 1, 0, 1]`), both miss the cache and both
call the upstream — two upstream calls, refuting "at most one in flight /
exactly one upstream call". -/
theorem c3_coalescing_counterexample :
    (Api.runSched [coalesceReq, coalesceReq] [0, 1, 0, 1]).upstreamCalls = 2
    ∧ (Api.runSched [coalesceReq, coalesceReq] [0, 1, 0, 1]).phases
        = [.finished (.okUrl "https://e.test/480"), .finished (.okUrl "https://e.test/480")]
    ∧ ¬ (∀ sched : List Nat,
          (Api.runSched [coalesceReq, coalesceReq] sched).upstreamCalls ≤ 1) :=
  ⟨by decide, by decide, fun hall => absurd (hall [0, 1, 0, 1]) (by decide)⟩

/-- C3, amended.  Deduplication happens only through the completed-result
cache: same-key callers whose cache checks both precede the first store
each trigger their own upstream call (two calls for two overlapping
callers), while a caller scheduled entirely after a completed same-key
resolution triggers none (one upstream call in total). -/
theorem c3_coalescing_amended :
    (∀ (vid : String) (itag : Option String) (d : PlayerData) (u : String),
        Api.playabilityIsOK d = true →
        Api.extractBestStreamUrl d itag = some u →
          (Api.runSched [⟨vid, itag, .ok d⟩, ⟨vid, itag, .ok d⟩] [0, 1, 0, 1]).upstreamCalls = 2)
    ∧ (∀ (vid : String) (itag : Option String) (d : PlayerData) (u : String),
        Api.playabilityIsOK d = true →
        Api.extractBestStreamUrl d itag = some u →
          (Api.runSched [⟨vid, itag, .ok d⟩, ⟨vid, itag, .ok d⟩] [0, 0, 1]).upstreamCalls = 1) := by
  constructor <;>
  · intro vid itag d u hp he
    simp [Api.runSched, Api.initState, Api.stepAt, hp, he, List.lookup]

/-- C3 witness (for the amended statement). -/
theorem c3_coalescing_amended_witness :
    (Api.runSched [coalesceReq, coalesceReq] [0, 1, 0, 1]).upstreamCalls = 2 :=
  c3_coalescing_amended.1 "dQw4w9WgXcQ" none simpleOkData "https://e.test/480"
    (by decide) (by decide)

/-- C5.  An HTTP-successful upstream answer — whatever descriptor it
carries — is returned by `getYouTubeStreamData` as-is after a single data
request (the retry logic lives in the `catch` branch, so a 200 response
with an unplayable descriptor never retries); and the handler, on a
descriptor whose playability status is not "OK", answers the
distinguishable 403 error carrying the upstream reason without ever
invoking the format selector. -/
theorem c5_unplayable_short_circuit :
    (∀ (h : Nat → Bool) (u : Nat → Server.UpstreamResp) (j : Nat → Nat) (d : PlayerData),
        u 0 = .ok d →
          Server.getYouTubeStreamData h u j
            = (.success d, Server.initialVisitEvents (h 0) ++ [.dataReq, .dataSave]))
    ∧ (∀ (vid : String) (itag : Option String) (d : PlayerData),
        Api.playabilityIsOK d = false →
          (Api.runSched [⟨vid, itag, .ok d⟩] [0, 0]).phases
              = [.finished (.unplayable (Api.reasonOf d))]
          ∧ (Api.runSched [⟨vid, itag, .ok d⟩] [0, 0]).selectorCalls = 0
          ∧ (Api.runSched [⟨vid, itag, .ok d⟩] [0, 0]).upstreamCalls = 1) := by
  constructor
  · intro h u j d hu
    simp [Server.getYouTubeStreamData, Server.getYTSDAux, hu]
  · intro vid itag d hp
    refine ⟨?_, ?_, ?_⟩ <;>
      simp [Api.runSched, Api.initState, Api.stepAt, hp, List.lookup]

/-- C5 witness: a descriptor with playability "ERROR" and reason
"Private video" is short-circuited to the 403 answer, with one upstream
call, no retry, and no selector invocation. -/
theorem c5_unplayable_short_circuit_witness :
    (Api.runSched [⟨"dQw4w9WgXcQ", none, .ok unplayableData⟩] [0, 0]).phases
        = [.finished (.unplayable (Api.reasonOf unplayableData))]
    ∧ (Api.runSched [⟨"dQw4w9WgXcQ", none, .ok unplayableData⟩] [0, 0]).selectorCalls = 0
    ∧ (Api.runSched [⟨"dQw4w9WgXcQ", none, .ok unplayableData⟩] [0, 0]).upstreamCalls = 1 :=
  c5_unplayable_short_circuit.2 "dQw4w9WgXcQ" none unplayableData (by decide)

/-! ## Claims C6, C7, C8 — the reference normalizer -/

theorem idChar_ne_of (c b : Char) (h : isIdChar c = true) (hb : isIdChar b = false) :
    c ≠ b := by
  rintro rfl
  rw [h] at hb
  exact Bool.noConfusion hb

theorem splitOnceAux_none_of_short (sep : List Char) :
    ∀ (l : List Char), l.length < sep.length → splitOnceAux sep l = none := by
  intro l
  induction l with
  | nil => intro _; rfl
  | cons c rest ih =>
    intro h
    have hp : sep.isPrefixOf (c :: rest) = false := by
      cases hx : sep.isPrefixOf (c :: rest)
      · rfl
      · have := (List.isPrefixOf_iff_prefix.mp hx).length_le
        simp only [List.length_cons] at this h
        omega
    simp only [splitOnceAux, hp, Bool.false_eq_true, if_false]
    rw [ih (by simp only [List.length_cons] at h ⊢; omega)]

/-- A separator containing a character foreign to the list never occurs in
the list. -/
theorem splitOnceAux_none_of_missing (sep : List Char) (c : Char) (hc : c ∈ sep) :
    ∀ (l : List Char), (∀ x ∈ l, x ≠ c) → splitOnceAux sep l = none := by
  intro l
  induction l with
  | nil => intro _; rfl
  | cons x rest ih =>
    intro h
    have hp : sep.isPrefixOf (x :: rest) = false := by
      cases hx : sep.isPrefixOf (x :: rest)
      · rfl
      · exact absurd rfl (h c ((List.isPrefixOf_iff_prefix.mp hx).subset hc))
    simp only [splitOnceAux, hp, Bool.false_eq_true, if_false]
    rw [ih (fun y hy => h y (List.mem_cons_of_mem _ hy))]

theorem decodeChars_noop :
    ∀ (l : List Char), (∀ c ∈ l, c ≠ '%' ∧ c ≠ '+') → decodeChars l = l := by
  intro l
  induction l with
  | nil => intro _; rfl
  | cons c rest ih =>
    intro h
    have hc := h c (by simp)
    rw [decodeChars.eq_4 c rest (fun he => hc.2 he) (fun a b r2 he _ => hc.1 he)]
    rw [ih (fun x hx => h x (List.mem_cons_of_mem _ hx))]

/-- Rule (a): an input already matching the identifier pattern is returned
unchanged. -/
theorem extractVideoId_of_pattern (s : String) (hs : matchesIdPattern s = true) :
    extractVideoId s = s := by
  have hne : s ≠ "" := by
    rintro rfl
    exact absurd hs (by decide)
  simp [extractVideoId, hne, hs]

set_option maxRecDepth 8192 in
/-- The full watch URL of a canonical id normalizes to that id. -/
theorem extractVideoId_watch (id : String) (h1 : id.length = 11)
    (h2 : ∀ c ∈ id.data, isIdChar c = true) :
    extractVideoId ("https://www.youtube.com/watch?v=" ++ id) = id := by
  have hid1 : id.data.length = 11 := h1
  have hne : ("https://www.youtube.com/watch?v=" ++ id) ≠ "" := by
    intro h
    have := congrArg String.length h
    simp [String.length_append, h1] at this
  have hhash : splitOnceAux ['#'] id.data = none :=
    splitOnceAux_none_of_missing _ '#' (by decide) _
      (fun x hx => idChar_ne_of x '#' (h2 x hx) (by decide))
  have hamp : splitOnceAux ['&'] id.data = none :=
    splitOnceAux_none_of_missing _ '&' (by decide) _
      (fun x hx => idChar_ne_of x '&' (h2 x hx) (by decide))
  have hdec : decodeChars id.data = id.data :=
    decodeChars_noop _ (fun x hx =>
      ⟨idChar_ne_of x '%' (h2 x hx) (by decide), idChar_ne_of x '+' (h2 x hx) (by decide)⟩)
  have hmk : (⟨id.data⟩ : String) = id := rfl
  have h32 : ("https://www.youtube.com/watch?v=" : String).length = 32 := by decide
  have hnp : matchesIdPattern ("https://www.youtube.com/watch?v=" ++ id) = false := by
    simp [matchesIdPattern, String.length_append, h32, h1]
  have hjs : jsURLSearch ("https://www.youtube.com/watch?v=" ++ id)
      = some ⟨'?' :: 'v' :: '=' :: id.data⟩ := by
    simp [jsURLSearch, String.data_append, splitOnceAux, List.isPrefixOf, hhash, isSchemeChar]
  have hv : (⟨decodeChars ['v']⟩ : String) = "v" := rfl
  have hsp : searchParamsGet ⟨'?' :: 'v' :: '=' :: id.data⟩ "v" = some id := by
    simp [searchParamsGet, hid1, splitAllFuel, splitOnceAux, List.isPrefixOf, hamp,
      pairOfPiece, hdec, hmk, hv]
  have hinc : strIncludes ("https://www.youtube.com/watch?v=" ++ id) "youtube.com/watch" = true := by
    simp [strIncludes, String.data_append, splitOnceAux, List.isPrefixOf]
  simp [extractVideoId, hne, hnp, hinc, hjs, hsp]

set_option maxRecDepth 8192 in
/-- The short `youtu.be` URL of a canonical id normalizes to that id. -/
theorem extractVideoId_short (id : String) (h1 : id.length = 11)
    (h2 : ∀ c ∈ id.data, isIdChar c = true) :
    extractVideoId ("https://youtu.be/" ++ id) = id := by
  have hid1 : id.data.length = 11 := h1
  have hne : ("https://youtu.be/" ++ id) ≠ "" := by
    intro h
    have := congrArg String.length h
    simp [String.length_append, h1] at this
  have h17 : ("https://youtu.be/" : String).length = 17 := by decide
  have hnp : matchesIdPattern ("https://youtu.be/" ++ id) = false := by
    simp [matchesIdPattern, String.length_append, h17, h1]
  have hshort : splitOnceAux "youtube.com/watch".data id.data = none :=
    splitOnceAux_none_of_short _ _ (by rw [hid1]; decide)
  have hnw : strIncludes ("https://youtu.be/" ++ id) "youtube.com/watch" = false := by
    simp [strIncludes, String.data_append, splitOnceAux, List.isPrefixOf, hshort]
  have hnoY : splitOnceAux "youtu.be/".data id.data = none :=
    splitOnceAux_none_of_missing _ '.' (by decide) _
      (fun x hx => idChar_ne_of x '.' (h2 x hx) (by decide))
  have hnoQ : splitOnceAux ['?'] id.data = none :=
    splitOnceAux_none_of_missing _ '?' (by decide) _
      (fun x hx => idChar_ne_of x '?' (h2 x hx) (by decide))
  have hmk : (⟨id.data⟩ : String) = id := rfl
  have hseg : jsSegAfterFirst ("https://youtu.be/" ++ id) "youtu.be/" = id := by
    simp [jsSegAfterFirst, String.data_append, splitOnceAux, List.isPrefixOf, hnoY, hmk]
  have hq : jsBeforeFirst id "?" = id := by
    simp [jsBeforeFirst, hnoQ]
  have hincY : strIncludes ("https://youtu.be/" ++ id) "youtu.be/" = true := by
    simp [strIncludes, String.data_append, splitOnceAux, List.isPrefixOf]
  simp [extractVideoId, hne, hnp, hnw, hincY, hseg, hq]

/-- Everything after the first occurrence of `marker` (`""` when absent) —
the generous reading of the claim's "the path segment following it". -/
def afterFirstMarker (s marker : String) : String :=
  match splitOnceAux marker.data s.data with
  | some (_, post) => ⟨post⟩
  | none => ""

/-- The claim's reading of "a `v` query parameter": the `v` parameter of
the textual query — everything after the input's first `?` — with no
requirement that the input parse as an absolute URL. -/
def watchVParamText (s : String) : Option String :=
  match splitOnceAux ['?'] s.data with
  | some (_, q) => searchParamsGet ⟨q⟩ "v"
  | none => none

/-- C6's rules rendered literally: (a) pattern match — return unchanged;
(b) else a watch path with a v query parameter — return that value;
(c) else a short-link marker — return what follows it, truncated at the
next `?`; (d) else Invalid. -/
def normalizeRulesClaim (s : String) : String :=
  if matchesIdPattern s then s
  else if strIncludes s "youtube.com/watch" && (watchVParamText s).isSome then
    (watchVParamText s).getD ""
  else if strIncludes s "youtu.be/" then
    jsBeforeFirst (afterFirstMarker s "youtu.be/") "?"
  else ""

/-- C6's rules as the code actually applies them, the two amendments being
rule (b) and rule (c): (b) dispatches on the watch marker alone and then
*requires the input to parse as an absolute URL* — a parse failure or a
missing/empty `v` parameter yields Invalid with no fall-through to (c);
(c) returns the segment strictly *between* the first occurrence of the
short-link marker and its next occurrence (or the end), truncated at the
first `?`. -/
def normalizeRulesAmended (s : String) : String :=
  if matchesIdPattern s then s
  else if strIncludes s "youtube.com/watch" then
    match jsURLSearch s with
    | none => ""
    | some search => (searchParamsGet search "v").getD ""
  else if strIncludes s "youtu.be/" then
    jsBeforeFirst (jsSegAfterFirst s "youtu.be/") "?"
  else ""

/-- C6, counterexample.  The claimed rules disagree with `extractVideoId`
at two concrete inputs: a scheme-less watch reference with a v parameter
(rule (b) as claimed returns the parameter; the code's `new URL` throws and
the `catch` yields Invalid), and a short link whose following text contains
the marker again (rule (c) as claimed keeps everything after the first
marker; the code's `split(...)[1]` truncates at the second occurrence). -/
theorem c6_counterexample :
    (extractVideoId "youtube.com/watch?v=abcdefghijk" = ""
      ∧ normalizeRulesClaim "youtube.com/watch?v=abcdefghijk" = "abcdefghijk")
    ∧ (extractVideoId "https://youtu.be/abyoutu.be/cd" = "ab"
      ∧ normalizeRulesClaim "https://youtu.be/abyoutu.be/cd" = "abyoutu.be/cd") :=
  ⟨⟨by decide, by decide⟩, by decide, by decide⟩

/-- C6, amended.  `extractVideoId` applies exactly the amended rules, in
order, for every input string; it is a pure function of its input. -/
theorem c6_normalizer_rules_amended :
    ∀ s : String, extractVideoId s = normalizeRulesAmended s := by
  intro s
  by_cases hse : s = ""
  · subst hse; rfl
  · simp [extractVideoId, normalizeRulesAmended, hse]

/-- C7, counterexample.  `extractVideoId` can produce a value that is
neither Invalid nor an 11-character token: the short link
`https://youtu.be/ab` yields `"ab"`. -/
theorem c7_counterexample :
    extractVideoId "https://youtu.be/ab" = "ab"
    ∧ ¬(extractVideoId "https://youtu.be/ab" = ""
        ∨ matchesIdPattern (extractVideoId "https://youtu.be/ab") = true) :=
  ⟨by decide, by decide⟩

/-- C7, amended.  Only rule (a) guarantees the canonical shape: an input
matching the 11-character pattern is returned unchanged (and hence matches
the pattern), while the URL-extraction branches return their raw extracted
token unvalidated — tokens that are neither Invalid nor 11 characters do
occur. -/
theorem c7_output_shape_amended :
    (∀ s : String, matchesIdPattern s = true →
        extractVideoId s = s ∧ matchesIdPattern (extractVideoId s) = true)
    ∧ (∃ s : String, extractVideoId s ≠ ""
        ∧ matchesIdPattern (extractVideoId s) = false) := by
  constructor
  · intro s hs
    have h := extractVideoId_of_pattern s hs
    exact ⟨h, by rw [h]; exact hs⟩
  · exact ⟨"https://youtu.be/ab", by decide, by decide⟩

/-- C7 witness. -/
theorem c7_output_shape_amended_witness :
    extractVideoId "dQw4w9WgXcQ" = "dQw4w9WgXcQ"
    ∧ matchesIdPattern (extractVideoId "dQw4w9WgXcQ") = true :=
  c7_output_shape_amended.1 "dQw4w9WgXcQ" (by decide)

/-- C8.  Normalization is idempotent on every input whose normalization is
canonical or Invalid — in particular on all valid inputs — and the three
accepted shapes of the same video (bare 11-character id, full watch URL,
short `youtu.be` URL) normalize to the identical VideoId. -/
theorem c8_normalization_idempotent_shapes :
    (∀ x : String,
        (matchesIdPattern (extractVideoId x) = true ∨ extractVideoId x = "") →
          extractVideoId (extractVideoId x) = extractVideoId x)
    ∧ (∀ id : String, matchesIdPattern id = true →
        extractVideoId id = id
        ∧ extractVideoId ("https://www.youtube.com/watch?v=" ++ id) = id
        ∧ extractVideoId ("https://youtu.be/" ++ id) = id) := by
  constructor
  · rintro x (hp | hinv)
    · exact extractVideoId_of_pattern _ hp
    · rw [hinv]; rfl
  · intro id hid
    have h1 : id.length = 11 := by
      simp [matchesIdPattern] at hid
      exact hid.1
    have h2 : ∀ c ∈ id.data, isIdChar c = true := by
      simp [matchesIdPattern] at hid
      exact fun c hc => hid.2 c hc
    exact ⟨extractVideoId_of_pattern _ hid, extractVideoId_watch id h1 h2,
      extractVideoId_short id h1 h2⟩

/-- C8 witness: the three shapes of `dQw4w9WgXcQ` (and idempotence on
them, via rule (a) on the canonical output). -/
theorem c8_normalization_idempotent_shapes_witness :
    extractVideoId "dQw4w9WgXcQ" = "dQw4w9WgXcQ"
    ∧ extractVideoId ("https://www.youtube.com/watch?v=" ++ "dQw4w9WgXcQ") = "dQw4w9WgXcQ"
    ∧ extractVideoId ("https://youtu.be/" ++ "dQw4w9WgXcQ") = "dQw4w9WgXcQ" :=
  c8_normalization_idempotent_shapes.2 "dQw4w9WgXcQ" (by decide)
